import Mathlib

/-!
Verification of the geoip-rs core (index construction and resolution engine).

The development shallowly embeds the Rust sources:
  * `src/lib.rs`   — `GeoIPDB` (bucket-key derivation, network expansion,
                     index construction, `resolve`, `get_location`);
  * `src/datasets.rs` — row filtering for the blocks dataset and the
                     last-write-wins location map input.

Modelling conventions:
  * `u32` machine integers are modelled as `Nat` (no arithmetic in the
    modelled code can overflow a `u32`: the bucket key is at most `255255`);
    values that the Rust types bound are modelled as `Fin` (an `Ipv4Addr`
    is a 32-bit quantity, an `Ipv4Net` prefix length is at most 32 by the
    `ipnet` crate construction invariant).
  * `f32` latitude/longitude payloads are carried as opaque bit patterns
    (`Nat`); the modelled code never computes with them, it only tests their
    presence and moves them around.
  * a Rust panic (an `unwrap` failure) is the `Outcome.panicked` value; a
    normal return `v` is `Outcome.ok v`.
  * the CSV deserialisation layer is an external collaborator; the embedding
    starts from already-typed rows (`RawBlock` with its `Option` fields,
    `Location`) exactly as `serde` hands them to the filtering code.
-/

/-- Outcome of running a piece of Rust code that may panic: either a normal
return value or a panic (`unwrap` on a failed parse / absent key). -/
inductive Outcome (α : Type) where
  | ok : α → Outcome α
  | panicked : Outcome α
deriving DecidableEq, Repr

/-- Embedding of `ipnet::Ipv4Net`: a 32-bit address together with a prefix
length that the `ipnet` constructors bound by 32. The address is stored as
given (the crate does not truncate host bits on construction). -/
structure Ipv4Net where
  addr : Fin 4294967296
  prefix_len : Fin 33
deriving DecidableEq, Repr

/-- Number of host bits of a network: `32 - prefix_len`. -/
def hostBits (n : Ipv4Net) : Nat := 32 - (n.prefix_len : Nat)

/-- Embedding of `Ipv4Net::network()`: the base address, i.e. the stored
address with its `32 - prefix_len` low (host) bits cleared. -/
def ipnetNetwork (n : Ipv4Net) : Nat :=
  (n.addr : Nat) / 2 ^ hostBits n * 2 ^ hostBits n

/-- Embedding of `Ipv4Net::broadcast()`: the stored address with all host
bits set, which equals the base address plus `2 ^ hostBits - 1`. -/
def ipnetBroadcast (n : Ipv4Net) : Nat :=
  ipnetNetwork n + (2 ^ hostBits n - 1)

/-- Embedding of `Ipv4Net::contains(&Ipv4Addr)` from the `ipnet` crate:
`self.network() <= addr && addr <= self.broadcast()`. -/
def ipnetContains (n : Ipv4Net) (ip : Nat) : Bool :=
  decide (ipnetNetwork n ≤ ip ∧ ip ≤ ipnetBroadcast n)

/-- Embedding of a block row after deserialisation (`datasets.rs`,
`RawBlock`): `geoname_id`, `latitude`, `longitude` are optional in the raw
CSV. The `network` field is the already-parsed CIDR value consumed by
`lib.rs`; latitude/longitude carry the `f32` payload as an opaque bit
pattern. -/
structure RawBlock where
  network : Ipv4Net
  geoname_id : Option Nat
  postal_code : String
  latitude : Option Nat
  longitude : Option Nat
deriving DecidableEq, Repr

/-- Embedding of `datasets.rs` `Block`: a row admitted into the index, with
the three optional fields unwrapped. -/
structure Block where
  network : Ipv4Net
  geoname_id : Nat
  postal_code : String
  latitude : Nat
  longitude : Nat
deriving DecidableEq, Repr

/-- Embedding of `datasets.rs` `Location`. -/
structure Location where
  geoname_id : Nat
  continent_code : String
  continent_name : String
  country_code : String
  country_name : String
  region_code : String
  region_name : String
  province_code : String
  province_name : String
  city_name : String
  timezone : String
deriving DecidableEq, Repr

/-- Predicate under which `parse_blocks_csv` keeps a raw row:
`record.geoname_id.is_some() && record.latitude.is_some() &&
record.longitude.is_some()`. -/
def rawBlockComplete (r : RawBlock) : Bool :=
  r.geoname_id.isSome && r.latitude.isSome && r.longitude.isSome

/-- The `map` step of `parse_blocks_csv`: unwrap the three optional fields
of a row that passed the filter (the defaults are never reached on filtered
rows). -/
def blockOfRaw (r : RawBlock) : Block :=
  { network := r.network
    geoname_id := r.geoname_id.getD 0
    postal_code := r.postal_code
    latitude := r.latitude.getD 0
    longitude := r.longitude.getD 0 }

/-- Embedding of `datasets.rs` `parse_blocks_csv` (past the collaborator
CSV deserialisation): keep exactly the rows with `geoname_id`, `latitude`
and `longitude` all present, then build a `Block` from each. -/
def parse_blocks_csv (rows : List RawBlock) : List Block :=
  (rows.filter rawBlockComplete).map blockOfRaw

/-- Embedding of the `scan(1_000, ...)` iterator step of
`ipaddr_to_map_key`: the state starts at 1000 and is divided by 1000 after
each element; each element is multiplied by the incoming state. -/
def scanMul : Nat → List Nat → List Nat
  | _, [] => []
  | s, v :: vs => s * v :: scanMul (s / 1000) vs

/-- Embedding of `GeoIPDB::ipaddr_to_map_key`: take the first two octets of
the address (most significant first), run them through the multiply-by-
decreasing-powers-of-1000 scan, and sum. -/
def ipaddr_to_map_key (ip : Nat) : Nat :=
  (scanMul 1000 [ip / 16777216 % 256, ip / 65536 % 256]).foldl
    (fun a b => a + b) 0

/-- Embedding of `GeoIPDB::ipnet_to_map_key`: the key of the network's
stored address. -/
def ipnet_to_map_key (n : Ipv4Net) : Nat :=
  ipaddr_to_map_key (n.addr : Nat)

/-- Base addresses of the /16 subnets produced by `network.subnets(16)` in
the `ipnet` crate: the iterator walks from `network()` to `broadcast()` in
steps of `2^16`, yielding `2^(16 - prefix_len)` aligned /16 networks. -/
def subnets16Bases (n : Ipv4Net) : List Nat :=
  (List.range (2 ^ (16 - (n.prefix_len : Nat)))).map
    (fun i => ipnetNetwork n + i * 65536)

/-- Embedding of `GeoIPDB::expand_network`: for a prefix below 16, the keys
of every /16 subnet of the network (the subnet iterator yields nets whose
stored address is the subnet base); otherwise the single key of the
network's stored address. -/
def expand_network (n : Ipv4Net) : List Nat :=
  if (n.prefix_len : Nat) < 16 then
    (subnets16Bases n).map ipaddr_to_map_key
  else
    [ipnet_to_map_key n]

/-- One `blocks.entry(*network).or_insert(Vec::new()).push(block.clone())`
step of `GeoIPDB::new`, with the `HashMap<u32, Vec<Block>>` modelled as a
function from keys to optional candidate vectors. -/
def insertBlock (m : Nat → Option (List Block)) (k : Nat) (b : Block) :
    Nat → Option (List Block) :=
  fun k' => if k' = k then some ((m k).getD [] ++ [b]) else m k'

/-- The per-block step of the index construction in `GeoIPDB::new`: push
the block into the bucket of every key of its expanded network, in the
order the expansion lists them. -/
def indexStep (m : Nat → Option (List Block)) (b : Block) :
    Nat → Option (List Block) :=
  (expand_network b.network).foldl (fun m' k => insertBlock m' k b) m

/-- Embedding of the blocks half of `GeoIPDB::new`: fold every admitted
block, in arrival order, into the bucket map. -/
def buildBlocks (bs : List Block) : Nat → Option (List Block) :=
  bs.foldl indexStep (fun _ => none)

/-- One `locations.insert(location.geoname_id, location)` step of
`GeoIPDB::new`, with the `HashMap<u32, Location>` modelled as a function
from ids to optional records. -/
def insertLocation (m : Nat → Option Location) (l : Location) :
    Nat → Option Location :=
  fun k => if k = l.geoname_id then some l else m k

/-- Embedding of the locations half of `GeoIPDB::new`: fold every location
row, in arrival order, into the map (later rows overwrite earlier ones). -/
def buildLocations (ls : List Location) : Nat → Option Location :=
  ls.foldl insertLocation (fun _ => none)

/-- Embedding of the `GeoIPDB` struct: the two maps built by `new`. -/
structure GeoIPDB where
  locations : Nat → Option Location
  blocks : Nat → Option (List Block)

/-- Embedding of `GeoIPDB::new` past the collaborator CSV layer: filter the
raw block rows, build the bucket index, and build the location map
(`parse_locations_csv` deserialises rows one-to-one, so its input is
already a list of `Location`). -/
def GeoIPDB.new (blockRows : List RawBlock) (locRows : List Location) :
    GeoIPDB :=
  { locations := buildLocations locRows
    blocks := buildBlocks (parse_blocks_csv blockRows) }

/-- Splitting of a character list at every dot, embedding the group
structure that `Ipv4Addr`'s string parser reads. -/
def splitDots : List Char → List (List Char)
  | [] => [[]]
  | c :: cs =>
    match splitDots cs with
    | [] => [[]]
    | g :: gs => if c = '.' then [] :: g :: gs else (c :: g) :: gs

/-- Numeric value of a decimal digit character. -/
def digitVal (c : Char) : Nat := c.toNat - 48

/-- Embedding of one octet of Rust's `Ipv4Addr` string parser: a non-empty
all-digit group, without a leading zero (unless it is exactly `0`), whose
value is at most 255. -/
def parseOctet (cs : List Char) : Option Nat :=
  if cs = [] then none
  else if ¬ cs.all (fun c => c.isDigit) then none
  else if 1 < cs.length ∧ cs.head? = some '0' then none
  else
    let v := cs.foldl (fun acc c => acc * 10 + digitVal c) 0
    if v ≤ 255 then some v else none

/-- Embedding of `str::parse::<Ipv4Addr>()`: exactly four dot-separated
octets; the result is the 32-bit value of the address. -/
def parseIpv4 (s : String) : Option Nat :=
  match splitDots s.data with
  | [g0, g1, g2, g3] =>
    match parseOctet g0, parseOctet g1, parseOctet g2, parseOctet g3 with
    | some a, some b, some c, some d =>
      some (a * 16777216 + b * 65536 + c * 256 + d)
    | _, _, _, _ => none
  | _ => none

/-- Embedding of `GeoIPDB::resolve`: parse the address (`unwrap` panics on
a malformed literal), derive its bucket key, and scan the bucket's
candidates for the first block whose network contains the address. -/
def resolve (db : GeoIPDB) (s : String) : Outcome (Option Block) :=
  match parseIpv4 s with
  | none => Outcome.panicked
  | some ip =>
    Outcome.ok
      (Option.bind (db.blocks (ipaddr_to_map_key ip))
        (fun cs => cs.find? (fun b => ipnetContains b.network ip)))

/-- Embedding of `GeoIPDB::get_location`: direct map lookup, `unwrap`
panicking when the id is absent. -/
def get_location (db : GeoIPDB) (geoname_id : Nat) : Outcome Location :=
  match db.locations geoname_id with
  | none => Outcome.panicked
  | some l => Outcome.ok l

/-- Containment stated the way the specification words it: the address,
masked by the network's prefix length (its host bits cleared), equals the
network's base address. Used to compare the code's interval test against
the specified masked-equality test. -/
def maskContains (n : Ipv4Net) (ip : Nat) : Bool :=
  decide (ip / 2 ^ hostBits n * 2 ^ hostBits n = ipnetNetwork n)

/-- Bucket contribution of a single block at key `k`: one copy of the block
per occurrence of `k` in its expanded key list (the expansion never repeats
a key, so this is the block itself when `k` is one of its keys and nothing
otherwise). -/
def bucketContrib (k : Nat) (b : Block) : List Block :=
  List.replicate ((expand_network b.network).count k) b

/-- The three-row raw block dataset of the row-filtering scenario: two
complete rows and one row missing `geoname_id`, `latitude` and
`longitude` (the datasets of the repository's own tests). -/
def threeRowExample : List RawBlock :=
  [ { network := { addr := 16777216, prefix_len := 24 }
      geoname_id := some 2077456
      postal_code := ""
      latitude := some 1
      longitude := some 2 }
  , { network := { addr := 16777472, prefix_len := 24 }
      geoname_id := some 1811017
      postal_code := ""
      latitude := some 3
      longitude := some 4 }
  , { network := { addr := 92771726, prefix_len := 32 }
      geoname_id := none
      postal_code := ""
      latitude := none
      longitude := none } ]

/-- A concrete location record (the repository's own test data). -/
def exampleLocation : Location :=
  { geoname_id := 1809935
    continent_code := "AS"
    continent_name := "Asia"
    country_code := "CN"
    country_name := "China"
    region_code := "GD"
    region_name := "Guangdong"
    province_code := ""
    province_name := ""
    city_name := ""
    timezone := "Asia/Shanghai" }

/-- A /14 network (10.0.0.0/14), used as a concrete expansion input. -/
def exampleNet14 : Ipv4Net := { addr := 167772160, prefix_len := 14 }

/-- Concrete resolvable address literal, inside the first block of
`threeRowExample` (1.0.0.77). -/
def ipStrExample : String := "1.0.0.77"

/-- Concrete malformed address literal. -/
def notAnIpStr : String := "not-an-ip"

theorem scanMul_pair (s a b : Nat) :
    scanMul s [a, b] = [s * a, s / 1000 * b] := rfl

theorem ipaddr_to_map_key_closed (ip : Nat) :
    ipaddr_to_map_key ip =
      1000 * (ip / 16777216 % 256) + ip / 65536 % 256 := by
  simp [ipaddr_to_map_key, scanMul]

/-- C3: for every IPv4 address `a.b.c.d` (each octet below 256), the bucket
key is exactly `1000 * a + b`, and it lies in the range `0 .. 255255`. -/
theorem bucket_key_formula (a b c d : Nat)
    (ha : a < 256) (hb : b < 256) (hc : c < 256) (hd : d < 256) :
    ipaddr_to_map_key (a * 16777216 + b * 65536 + c * 256 + d) =
      1000 * a + b ∧ 1000 * a + b ≤ 255255 := by
  rw [ipaddr_to_map_key_closed]
  constructor
  · have h1 : (a * 16777216 + b * 65536 + c * 256 + d) / 16777216 = a := by
      omega
    have h2 : (a * 16777216 + b * 65536 + c * 256 + d) / 65536 % 256 = b := by
      omega
    rw [h1, h2, Nat.mod_eq_of_lt ha]
  · omega

/-- Witness for C3 at the specified example `255.255.255.12`. -/
theorem bucket_key_formula_witness :
    ipaddr_to_map_key (255 * 16777216 + 255 * 65536 + 255 * 256 + 12) =
      1000 * 255 + 255 ∧ 1000 * 255 + 255 ≤ 255255 :=
  bucket_key_formula 255 255 255 12 (by decide) (by decide) (by decide)
    (by decide)

theorem buildLocations_foldl (ls : List Location) (m : Nat → Option Location)
    (id : Nat) :
    (ls.foldl insertLocation m) id =
      match ls.reverse.find? (fun l => l.geoname_id == id) with
      | some l => some l
      | none => m id := by
  induction ls generalizing m with
  | nil => rfl
  | cons l ls ih =>
    rw [List.foldl_cons, ih, List.reverse_cons, List.find?_append]
    cases h : ls.reverse.find? (fun l => l.geoname_id == id) with
    | some x => simp [Option.orElse]
    | none =>
      simp only [Option.orElse, Option.none_orElse]
      by_cases hb : l.geoname_id = id
      · have hbeq : (l.geoname_id == id) = true := by simp [hb]
        simp [List.find?, hbeq, insertLocation, hb]
      · have hbeq : (l.geoname_id == id) = false := by simp [hb]
        simp [List.find?, hbeq, insertLocation, Ne.symm hb]

theorem buildLocations_eq (ls : List Location) (id : Nat) :
    buildLocations ls id = ls.reverse.find? (fun l => l.geoname_id == id) := by
  rw [buildLocations, buildLocations_foldl]
  cases ls.reverse.find? (fun l => l.geoname_id == id) <;> rfl

/-- C8: the built location map sends every id to the last record of the
input sequence bearing that id (the first one of the reversed sequence),
and it has an entry exactly for the ids that occur in the sequence. -/
theorem location_map_last_write_wins (ls : List Location) (id : Nat) :
    buildLocations ls id =
      ls.reverse.find? (fun l => l.geoname_id == id) ∧
    ((buildLocations ls id).isSome ↔ ∃ l ∈ ls, l.geoname_id = id) := by
  refine ⟨buildLocations_eq ls id, ?_⟩
  rw [buildLocations_eq, List.find?_isSome]
  constructor
  · rintro ⟨l, hl, hp⟩
    exact ⟨l, List.mem_reverse.mp hl, by simpa using hp⟩
  · rintro ⟨l, hl, hp⟩
    exact ⟨l, List.mem_reverse.mpr hl, by simpa using hp⟩

/-- C5: on a built database, `get_location` hits the absent-id failure (the
`unwrap` panic that the specification calls `UnknownGeonameId`) exactly for
ids borne by no location row, and for a present id it returns the record
stored in the map. -/
theorem get_location_spec (bs : List RawBlock) (ls : List Location)
    (id : Nat) :
    (get_location (GeoIPDB.new bs ls) id = Outcome.panicked ↔
      ∀ l ∈ ls, l.geoname_id ≠ id) ∧
    (∀ l, (GeoIPDB.new bs ls).locations id = some l →
      get_location (GeoIPDB.new bs ls) id = Outcome.ok l) := by
  constructor
  · rw [get_location]
    have hiff := (location_map_last_write_wins ls id).2
    show (match (GeoIPDB.new bs ls).locations id with
        | none => Outcome.panicked
        | some l => Outcome.ok l) = Outcome.panicked ↔ _
    cases h : (GeoIPDB.new bs ls).locations id with
    | none =>
      simp only [true_iff]
      intro l hl hid
      have : (buildLocations ls id).isSome := hiff.mpr ⟨l, hl, hid⟩
      rw [show (GeoIPDB.new bs ls).locations = buildLocations ls from rfl]
        at h
      rw [h] at this
      exact absurd this (by simp)
    | some l =>
      simp only [reduceCtorEq, false_iff, not_forall]
      have : (buildLocations ls id).isSome := by
        rw [show (GeoIPDB.new bs ls).locations = buildLocations ls from rfl]
          at h
        rw [h]; rfl
      obtain ⟨x, hx, hid⟩ := hiff.mp this
      exact ⟨x, hx, by simp [hid]⟩
  · intro l h
    rw [get_location, h]

/-- Witness for C5: an id absent from a concrete one-record dataset makes
`get_location` hit the absent-id failure. -/
theorem get_location_spec_witness :
    get_location (GeoIPDB.new [] [exampleLocation]) 999 =
      Outcome.panicked :=
  (get_location_spec [] [exampleLocation] 999).1.mpr (by decide)

/-- C9: index construction is deterministic — two builds from equal block
sequences agree on every bucket. -/
theorem build_deterministic (bs1 bs2 : List RawBlock) (ls : List Location)
    (k : Nat) (h : bs1 = bs2) :
    (GeoIPDB.new bs1 ls).blocks k = (GeoIPDB.new bs2 ls).blocks k := by
  rw [h]

/-- Witness for C9 on the three-row example dataset. -/
theorem build_deterministic_witness :
    threeRowExample = threeRowExample ∧
    (GeoIPDB.new threeRowExample []).blocks 1000 =
      (GeoIPDB.new threeRowExample []).blocks 1000 :=
  ⟨rfl, build_deterministic threeRowExample threeRowExample [] 1000 rfl⟩

/-- C6: a raw block row survives into the index exactly when `geoname_id`,
`latitude` and `longitude` are all present: every complete row's block is
admitted, the number of admitted blocks is the number of complete rows,
every admitted block's three fields come from a complete source row, and
the 3-row sample with one fully-missing row yields exactly 2 blocks. -/
theorem block_row_filtering (rows : List RawBlock) :
    (∀ r ∈ rows, rawBlockComplete r = true →
      blockOfRaw r ∈ parse_blocks_csv rows) ∧
    (parse_blocks_csv rows).length = rows.countP rawBlockComplete ∧
    (∀ b ∈ parse_blocks_csv rows, ∃ r ∈ rows, rawBlockComplete r = true ∧
      r.geoname_id = some b.geoname_id ∧ r.latitude = some b.latitude ∧
      r.longitude = some b.longitude) ∧
    (parse_blocks_csv threeRowExample).length = 2 := by
  refine ⟨?_, ?_, ?_, by decide⟩
  · intro r hr hc
    exact List.mem_map_of_mem blockOfRaw (List.mem_filter.mpr ⟨hr, hc⟩)
  · rw [parse_blocks_csv, List.length_map,
      List.countP_eq_length_filter rawBlockComplete rows]
  · intro b hb
    rw [parse_blocks_csv] at hb
    obtain ⟨r, hr, hb⟩ := List.mem_map.mp hb
    obtain ⟨hrows, hc⟩ := List.mem_filter.mp hr
    rw [rawBlockComplete] at hc
    simp only [Bool.and_eq_true] at hc
    obtain ⟨⟨h1, h2⟩, h3⟩ := hc
    refine ⟨r, hrows, by simp [rawBlockComplete, h1, h2, h3], ?_, ?_, ?_⟩
    · cases hg : r.geoname_id with
      | none => rw [hg] at h1; simp at h1
      | some v => rw [← hb]; simp [blockOfRaw, hg]
    · cases hg : r.latitude with
      | none => rw [hg] at h2; simp at h2
      | some v => rw [← hb]; simp [blockOfRaw, hg]
    · cases hg : r.longitude with
      | none => rw [hg] at h3; simp at h3
      | some v => rw [← hb]; simp [blockOfRaw, hg]

/-- Witness for C6: the three-row sample yields exactly two admitted
blocks. -/
theorem block_row_filtering_witness :
    (parse_blocks_csv threeRowExample).length = 2 :=
  (block_row_filtering threeRowExample).2.2.2

theorem insertBlock_fold (ks : List Nat) (b : Block)
    (m : Nat → Option (List Block)) (k : Nat) :
    (ks.foldl (fun m' k' => insertBlock m' k' b) m) k =
      if ks.count k = 0 then m k
      else some ((m k).getD [] ++ List.replicate (ks.count k) b) := by
  induction ks generalizing m with
  | nil => simp
  | cons k' ks ih =>
    rw [List.foldl_cons, ih]
    by_cases hk : k' = k
    · subst hk
      have hc : (k' :: ks).count k' = ks.count k' + 1 := by
        simp [List.count_cons]
      rw [hc]
      have hm : insertBlock m k' b k' = some ((m k').getD [] ++ [b]) := by
        simp [insertBlock]
      by_cases h0 : ks.count k' = 0
      · simp [h0, hm, List.replicate_succ]
      · rw [if_neg h0, if_neg (by omega), hm]
        cases hcnt : ks.count k' with
        | zero => exact absurd hcnt h0
        | succ n =>
          simp [List.replicate_succ, List.append_assoc]
    · have hc : (k' :: ks).count k = ks.count k := by
        simp [List.count_cons, hk]
      have hm : insertBlock m k' b k = m k := by
        simp [insertBlock, Ne.symm hk]
      rw [hc, hm]

theorem buildBlocks_foldl (bs : List Block)
    (m : Nat → Option (List Block)) (k : Nat) :
    (bs.foldl indexStep m) k =
      if bs.flatMap (bucketContrib k) = [] then m k
      else some ((m k).getD [] ++ bs.flatMap (bucketContrib k)) := by
  induction bs generalizing m with
  | nil => simp
  | cons b bs ih =>
    rw [List.foldl_cons, ih, List.flatMap_cons]
    have hstep : indexStep m b k =
        if (expand_network b.network).count k = 0 then m k
        else some ((m k).getD [] ++
          List.replicate ((expand_network b.network).count k) b) :=
      insertBlock_fold (expand_network b.network) b m k
    by_cases h0 : (expand_network b.network).count k = 0
    · rw [if_pos h0] at hstep
      rw [hstep]
      simp [bucketContrib, h0]
    · rw [if_neg h0] at hstep
      have hrep : bucketContrib k b =
          List.replicate ((expand_network b.network).count k) b := rfl
      have hne : bucketContrib k b ≠ [] := by
        rw [hrep]
        cases hcnt : (expand_network b.network).count k with
        | zero => exact absurd hcnt h0
        | succ n => simp [List.replicate_succ]
      by_cases hL : bs.flatMap (bucketContrib k) = []
      · rw [if_pos hL, hstep, hL, List.append_nil,
          if_neg (by simp [hne]), hrep]
      · rw [if_neg hL, hstep,
          if_neg (by simp [hne]), Option.getD_some, List.append_assoc]
        congr 1

theorem buildBlocks_eq (bs : List Block) (k : Nat) :
    buildBlocks bs k =
      if bs.flatMap (bucketContrib k) = [] then none
      else some (bs.flatMap (bucketContrib k)) := by
  rw [buildBlocks, buildBlocks_foldl]
  by_cases h : bs.flatMap (bucketContrib k) = [] <;> simp [h]

theorem key_congr_div65536 (x y : Nat) (h : x / 65536 = y / 65536) :
    ipaddr_to_map_key x = ipaddr_to_map_key y := by
  rw [ipaddr_to_map_key_closed, ipaddr_to_map_key_closed]
  have hx : x / 16777216 = x / 65536 / 256 := by
    rw [Nat.div_div_eq_div_mul]
  have hy : y / 16777216 = y / 65536 / 256 := by
    rw [Nat.div_div_eq_div_mul]
  rw [hx, hy, h]

theorem mask_div_eq (x j k : Nat) (h : j ≤ k) :
    x / 2 ^ j * 2 ^ j / 2 ^ k = x / 2 ^ k := by
  have h1 : (2:Nat) ^ k = 2 ^ j * 2 ^ (k - j) := by
    rw [← pow_add]
    congr 1
    omega
  rw [h1, ← Nat.div_div_eq_div_mul, ← Nat.div_div_eq_div_mul,
    Nat.mul_div_cancel _ (Nat.two_pow_pos j)]

theorem contains_iff_div_eq (n : Ipv4Net) (ip : Nat) :
    ipnetContains n ip = true ↔
      ip / 2 ^ hostBits n = (n.addr : Nat) / 2 ^ hostBits n := by
  have hE : 0 < 2 ^ hostBits n := Nat.two_pow_pos _
  rw [ipnetContains, decide_eq_true_iff, ipnetBroadcast, ipnetNetwork]
  constructor
  · rintro ⟨h1, h2⟩
    refine Nat.div_eq_of_lt_le h1 ?_
    have hsm : ((n.addr : Nat) / 2 ^ hostBits n + 1) * 2 ^ hostBits n =
        (n.addr : Nat) / 2 ^ hostBits n * 2 ^ hostBits n + 2 ^ hostBits n :=
      Nat.succ_mul _ _
    omega
  · intro h
    rw [← h]
    refine ⟨Nat.div_mul_le_self ip _, ?_⟩
    have hd := Nat.div_add_mod' ip (2 ^ hostBits n)
    have hm : ip % 2 ^ hostBits n < 2 ^ hostBits n := Nat.mod_lt ip hE
    omega

theorem contains_eq_maskContains (n : Ipv4Net) (ip : Nat) :
    ipnetContains n ip = maskContains n ip := by
  rw [maskContains]
  by_cases h : ipnetContains n ip = true
  · rw [h]
    symm
    rw [decide_eq_true_iff, ipnetNetwork, (contains_iff_div_eq n ip).mp h]
  · rw [Bool.not_eq_true] at h
    rw [h]
    symm
    rw [decide_eq_false_iff_not]
    intro hmask
    rw [ipnetNetwork] at hmask
    have hdiv := Nat.eq_of_mul_eq_mul_right (Nat.two_pow_pos (hostBits n))
      hmask
    rw [← Bool.not_eq_true] at h
    exact h ((contains_iff_div_eq n ip).mpr hdiv)

theorem key_network_eq_key_addr (n : Ipv4Net)
    (h : 16 ≤ (n.prefix_len : Nat)) :
    ipaddr_to_map_key (ipnetNetwork n) = ipaddr_to_map_key (n.addr : Nat) := by
  apply key_congr_div65536
  rw [ipnetNetwork]
  have hj : hostBits n ≤ 16 := by
    rw [hostBits]
    omega
  have h65536 : (65536:Nat) = 2 ^ 16 := by norm_num
  rw [h65536]
  exact mask_div_eq (n.addr : Nat) (hostBits n) 16 hj

theorem key_mul65536 (v : Nat) :
    ipaddr_to_map_key (v * 65536) = 1000 * (v / 256 % 256) + v % 256 := by
  rw [ipaddr_to_map_key_closed]
  omega

theorem netBase_decomp (n : Ipv4Net) (hp : (n.prefix_len : Nat) < 16) :
    ∃ w : Nat, ipnetNetwork n = w * 65536 ∧
      w + 2 ^ (16 - (n.prefix_len : Nat)) ≤ 65536 := by
  have hE : (2:Nat) ^ (32 - (n.prefix_len : Nat)) =
      2 ^ (16 - (n.prefix_len : Nat)) * 65536 := by
    rw [show (65536:Nat) = 2 ^ 16 from by norm_num, ← pow_add]
    congr 1
    omega
  refine ⟨(n.addr : Nat) / 2 ^ (32 - (n.prefix_len : Nat)) *
    2 ^ (16 - (n.prefix_len : Nat)), ?_, ?_⟩
  · rw [ipnetNetwork, hostBits, hE]
    ring
  · have hq : (n.addr : Nat) / 2 ^ (32 - (n.prefix_len : Nat)) <
        2 ^ (n.prefix_len : Nat) := by
      rw [Nat.div_lt_iff_lt_mul (Nat.two_pow_pos _)]
      calc (n.addr : Nat) < 4294967296 := n.addr.isLt
        _ = 2 ^ (n.prefix_len : Nat) * 2 ^ (32 - (n.prefix_len : Nat)) := by
          rw [← pow_add,
            show (4294967296:Nat) = 2 ^ 32 from by norm_num]
          congr 1
          omega
    have hmul : (2:Nat) ^ (n.prefix_len : Nat) *
        2 ^ (16 - (n.prefix_len : Nat)) = 65536 := by
      rw [show (65536:Nat) = 2 ^ 16 from by norm_num, ← pow_add]
      congr 1
      omega
    have hApos : (0:Nat) < 2 ^ (n.prefix_len : Nat) := Nat.two_pow_pos _
    calc (n.addr : Nat) / 2 ^ (32 - (n.prefix_len : Nat)) *
          2 ^ (16 - (n.prefix_len : Nat)) +
          2 ^ (16 - (n.prefix_len : Nat))
        ≤ (2 ^ (n.prefix_len : Nat) - 1) * 2 ^ (16 - (n.prefix_len : Nat)) +
          2 ^ (16 - (n.prefix_len : Nat)) :=
          Nat.add_le_add_right (Nat.mul_le_mul_right _ (by omega)) _
      _ = 2 ^ (n.prefix_len : Nat) * 2 ^ (16 - (n.prefix_len : Nat)) -
          2 ^ (16 - (n.prefix_len : Nat)) +
          2 ^ (16 - (n.prefix_len : Nat)) := by
          rw [Nat.sub_mul, one_mul]
      _ = 2 ^ (n.prefix_len : Nat) * 2 ^ (16 - (n.prefix_len : Nat)) :=
          Nat.sub_add_cancel (Nat.le_mul_of_pos_left _ hApos)
      _ = 65536 := hmul

theorem expand_network_nodup (n : Ipv4Net) :
    (expand_network n).Nodup := by
  by_cases hp : (n.prefix_len : Nat) < 16
  · rw [expand_network, if_pos hp, subnets16Bases, List.map_map]
    refine (List.nodup_range _).map_on ?_
    intro i hi j hj hkey
    rw [List.mem_range] at hi hj
    obtain ⟨w, hw, hwb⟩ := netBase_decomp n hp
    simp only [Function.comp] at hkey
    rw [hw] at hkey
    have hik : w * 65536 + i * 65536 = (w + i) * 65536 := by ring
    have hjk : w * 65536 + j * 65536 = (w + j) * 65536 := by ring
    rw [hik, hjk, key_mul65536, key_mul65536] at hkey
    have hBpos : (0:Nat) < 2 ^ (16 - (n.prefix_len : Nat)) :=
      Nat.two_pow_pos _
    generalize hB : (2:Nat) ^ (16 - (n.prefix_len : Nat)) = B at hi hj hwb hBpos
    omega
  · rw [expand_network, if_neg hp]
    exact List.nodup_singleton _

/-- C2: expanding a network with prefix at least 16 yields exactly the one
key of the network's base address; expanding a network with prefix `p < 16`
yields exactly `2^(16-p)` pairwise-distinct keys, the `i`-th being the key
of the base address of the `i`-th /16 sub-network, each such /16 range
lying entirely inside the original network. -/
theorem expand_network_spec (n : Ipv4Net) :
    (16 ≤ (n.prefix_len : Nat) →
      expand_network n = [ipaddr_to_map_key (ipnetNetwork n)]) ∧
    ((n.prefix_len : Nat) < 16 →
      (expand_network n).length = 2 ^ (16 - (n.prefix_len : Nat)) ∧
      (expand_network n).Nodup ∧
      ∀ i < 2 ^ (16 - (n.prefix_len : Nat)),
        (expand_network n)[i]? =
          some (ipaddr_to_map_key (ipnetNetwork n + i * 65536)) ∧
        ipnetNetwork n ≤ ipnetNetwork n + i * 65536 ∧
        ipnetNetwork n + i * 65536 + 65535 ≤ ipnetBroadcast n) := by
  constructor
  · intro h
    rw [expand_network, if_neg (by omega), ipnet_to_map_key,
      key_network_eq_key_addr n h]
  · intro hp
    refine ⟨?_, expand_network_nodup n, ?_⟩
    · rw [expand_network, if_pos hp, subnets16Bases, List.length_map,
        List.length_map, List.length_range]
    · intro i hi
      refine ⟨?_, Nat.le_add_right _ _, ?_⟩
      · rw [expand_network, if_pos hp, subnets16Bases, List.map_map,
          List.getElem?_map]
        simp [List.getElem?_range, hi]
      · rw [ipnetBroadcast, hostBits]
        have hE : (2:Nat) ^ (32 - (n.prefix_len : Nat)) =
            2 ^ (16 - (n.prefix_len : Nat)) * 65536 := by
          rw [show (65536:Nat) = 2 ^ 16 from by norm_num, ← pow_add]
          congr 1
          omega
        have hi' : i * 65536 ≤ (2 ^ (16 - (n.prefix_len : Nat)) - 1) *
            65536 := Nat.mul_le_mul_right _ (by omega)
        have hsub : ((2:Nat) ^ (16 - (n.prefix_len : Nat)) - 1) * 65536 =
            2 ^ (16 - (n.prefix_len : Nat)) * 65536 - 65536 := by
          rw [Nat.sub_mul, one_mul]
        have hBpos : (0:Nat) < 2 ^ (16 - (n.prefix_len : Nat)) :=
          Nat.two_pow_pos _
        omega

/-- Witness for C2 on the concrete /14 network 10.0.0.0/14: four distinct
keys. -/
theorem expand_network_spec_witness :
    (exampleNet14.prefix_len : Nat) < 16 ∧
    (expand_network exampleNet14).length =
      2 ^ (16 - (exampleNet14.prefix_len : Nat)) :=
  ⟨by decide, ((expand_network_spec exampleNet14).2 (by decide)).1⟩

theorem key_mem_expand (n : Ipv4Net) (ip : Nat)
    (h : ipnetContains n ip = true) :
    ipaddr_to_map_key ip ∈ expand_network n := by
  have hdiv := (contains_iff_div_eq n ip).mp h
  by_cases hp : (n.prefix_len : Nat) < 16
  · rw [hostBits] at hdiv
    rw [expand_network, if_pos hp, subnets16Bases, List.map_map]
    have hBpos : (0:Nat) < 2 ^ (16 - (n.prefix_len : Nat)) :=
      Nat.two_pow_pos _
    refine List.mem_map.mpr
      ⟨ip / 65536 % 2 ^ (16 - (n.prefix_len : Nat)),
        List.mem_range.mpr (Nat.mod_lt _ hBpos), ?_⟩
    simp only [Function.comp]
    apply key_congr_div65536
    have hE : (2:Nat) ^ (32 - (n.prefix_len : Nat)) =
        2 ^ (16 - (n.prefix_len : Nat)) * 65536 := by
      rw [show (65536:Nat) = 2 ^ 16 from by norm_num, ← pow_add]
      congr 1
      omega
    have hnb : ipnetNetwork n =
        ip / 2 ^ (32 - (n.prefix_len : Nat)) *
          2 ^ (16 - (n.prefix_len : Nat)) * 65536 := by
      rw [ipnetNetwork, hostBits, ← hdiv, hE]
      ring
    have hdd : ip / 65536 / 2 ^ (16 - (n.prefix_len : Nat)) =
        ip / 2 ^ (32 - (n.prefix_len : Nat)) := by
      rw [Nat.div_div_eq_div_mul]
      congr 1
      rw [hE]
      ring
    have hda := Nat.div_add_mod (ip / 65536)
      (2 ^ (16 - (n.prefix_len : Nat)))
    rw [hdd] at hda
    have hsum : ipnetNetwork n +
        ip / 65536 % 2 ^ (16 - (n.prefix_len : Nat)) * 65536 =
        (ip / 2 ^ (32 - (n.prefix_len : Nat)) *
          2 ^ (16 - (n.prefix_len : Nat)) +
          ip / 65536 % 2 ^ (16 - (n.prefix_len : Nat))) * 65536 := by
      rw [hnb]
      ring
    rw [hsum, Nat.mul_div_cancel _ (by norm_num : (0:Nat) < 65536),
      Nat.mul_comm]
    exact hda
  · rw [expand_network, if_neg hp, ipnet_to_map_key]
    have hj : hostBits n ≤ 16 := by
      rw [hostBits]
      omega
    have hpow : (2:Nat) ^ hostBits n * 2 ^ (16 - hostBits n) = 65536 := by
      rw [show (65536:Nat) = 2 ^ 16 from by norm_num, ← pow_add]
      congr 1
      omega
    have h1 : ip / 2 ^ hostBits n / 2 ^ (16 - hostBits n) = ip / 65536 := by
      rw [Nat.div_div_eq_div_mul, hpow]
    have h2 : (n.addr : Nat) / 2 ^ hostBits n / 2 ^ (16 - hostBits n) =
        (n.addr : Nat) / 65536 := by
      rw [Nat.div_div_eq_div_mul, hpow]
    refine List.mem_singleton.mpr (key_congr_div65536 ip (n.addr : Nat) ?_)
    rw [← h1, ← h2, hdiv]

theorem flatMap_bucketContrib_eq_filter (bs : List Block) (k : Nat) :
    bs.flatMap (bucketContrib k) =
      bs.filter (fun b => (expand_network b.network).contains k) := by
  induction bs with
  | nil => rfl
  | cons b bs ih =>
    rw [List.flatMap_cons, List.filter_cons, ih]
    by_cases h : (expand_network b.network).contains k = true
    · have hmem : k ∈ expand_network b.network := List.elem_iff.mp h
      have hcount : (expand_network b.network).count k = 1 :=
        List.count_eq_one_of_mem (expand_network_nodup b.network) hmem
      simp [bucketContrib, hcount, h, List.replicate_succ, hmem]
    · have hmem : k ∉ expand_network b.network := by
        intro hm
        exact h (List.elem_iff.mpr hm)
      have hcount : (expand_network b.network).count k = 0 :=
        List.count_eq_zero.mpr hmem
      simp [bucketContrib, hcount, h, hmem]

/-- C7: bucket `k` of the built index is absent when no admitted block
expands to `k`, and otherwise holds exactly the admitted blocks whose
expanded key set includes `k`, in arrival order — the same block value
appearing under every key of its expansion, and no bucket arising any
other way. -/
theorem index_build_spec (bs : List Block) (k : Nat) :
    buildBlocks bs k =
      if bs.filter (fun b => (expand_network b.network).contains k) = []
      then none
      else
        some (bs.filter
          (fun b => (expand_network b.network).contains k)) := by
  rw [buildBlocks_eq, flatMap_bucketContrib_eq_filter]

/-- C1: on a well-formed address, `resolve` derives the bucket key, returns
`none` when the index has no bucket there, and otherwise the first
candidate of the bucket, in stored order, whose network contains the
address under masked-equality CIDR containment. -/
theorem resolve_first_match (db : GeoIPDB) (s : String) (ip : Nat)
    (h : parseIpv4 s = some ip) :
    resolve db s = Outcome.ok
      (Option.bind (db.blocks (ipaddr_to_map_key ip))
        (fun cs => cs.find? (fun b => maskContains b.network ip))) ∧
    (db.blocks (ipaddr_to_map_key ip) = none →
      resolve db s = Outcome.ok none) := by
  have hpred : (fun b : Block => ipnetContains b.network ip) =
      (fun b : Block => maskContains b.network ip) :=
    funext (fun b => contains_eq_maskContains b.network ip)
  constructor
  · simp only [resolve, h]
    rw [hpred]
  · intro hb
    simp only [resolve, h, hb, Option.bind]

/-- Witness for C1 on the repository's own dataset and the address
1.0.0.77. -/
theorem resolve_first_match_witness :
    parseIpv4 ipStrExample = some 16777293 ∧
    resolve (GeoIPDB.new threeRowExample []) ipStrExample = Outcome.ok
      (Option.bind ((GeoIPDB.new threeRowExample []).blocks
        (ipaddr_to_map_key 16777293))
        (fun cs => cs.find? (fun b => maskContains b.network 16777293))) :=
  ⟨by decide,
    (resolve_first_match (GeoIPDB.new threeRowExample []) ipStrExample
      16777293 (by decide)).1⟩

/-- C4 (amended): on any input that is not a well-formed IPv4 literal,
`resolve` panics — the `unwrap` on the failed parse aborts; the failure is
not surfaced as an error value, and no-match is not silently returned. -/
theorem resolve_invalid_panics (db : GeoIPDB) (s : String)
    (h : parseIpv4 s = none) : resolve db s = Outcome.panicked := by
  simp only [resolve, h]

/-- Witness for the amended C4 at the concrete input `"not-an-ip"`. -/
theorem resolve_invalid_panics_witness :
    parseIpv4 notAnIpStr = none ∧
    resolve (GeoIPDB.new [] []) notAnIpStr = Outcome.panicked :=
  ⟨by decide,
    resolve_invalid_panics (GeoIPDB.new [] []) notAnIpStr (by decide)⟩

/-- C4 counterexample: at the concrete malformed input `"not-an-ip"` the
call ends in a panic, not in a non-panic error value surfaced to the
caller as the claim states. -/
theorem resolve_invalid_counterexample :
    resolve (GeoIPDB.new [] []) notAnIpStr = Outcome.panicked := by
  decide

/-- C10: bucket partitioning loses no matches — on a well-formed address,
if some admitted block's network contains it then `resolve` returns some
block whose network contains it, and if no admitted block's network
contains it then `resolve` returns `none`. -/
theorem resolve_no_lost_matches (rows : List RawBlock) (ls : List Location)
    (s : String) (ip : Nat) (hp : parseIpv4 s = some ip) :
    ((∃ b ∈ parse_blocks_csv rows, ipnetContains b.network ip = true) →
      ∃ b, resolve (GeoIPDB.new rows ls) s = Outcome.ok (some b) ∧
        ipnetContains b.network ip = true) ∧
    ((∀ b ∈ parse_blocks_csv rows, ipnetContains b.network ip = false) →
      resolve (GeoIPDB.new rows ls) s = Outcome.ok none) := by
  constructor
  · rintro ⟨b, hb, hc⟩
    have hk : ipaddr_to_map_key ip ∈ expand_network b.network :=
      key_mem_expand b.network ip hc
    have hfil : b ∈ (parse_blocks_csv rows).filter
        (fun b => (expand_network b.network).contains
          (ipaddr_to_map_key ip)) :=
      List.mem_filter.mpr ⟨hb, List.elem_iff.mpr hk⟩
    have hne : (parse_blocks_csv rows).filter
        (fun b => (expand_network b.network).contains
          (ipaddr_to_map_key ip)) ≠ [] :=
      List.ne_nil_of_mem hfil
    have hex : ∃ x ∈ (parse_blocks_csv rows).filter
        (fun b => (expand_network b.network).contains
          (ipaddr_to_map_key ip)),
        ipnetContains x.network ip = true := ⟨b, hfil, hc⟩
    have hs := List.find?_isSome.mpr hex
    cases hfind : ((parse_blocks_csv rows).filter
        (fun b => (expand_network b.network).contains
          (ipaddr_to_map_key ip))).find?
        (fun b => ipnetContains b.network ip) with
    | none =>
      rw [hfind] at hs
      simp at hs
    | some y =>
      have hpy := List.find?_some hfind
      refine ⟨y, ?_, hpy⟩
      simp only [resolve, hp]
      show Outcome.ok (Option.bind
        (buildBlocks (parse_blocks_csv rows) (ipaddr_to_map_key ip)) _) = _
      rw [buildBlocks_eq, flatMap_bucketContrib_eq_filter, if_neg hne]
      simp only [Option.some_bind, hfind]
  · intro hall
    simp only [resolve, hp]
    show Outcome.ok (Option.bind
      (buildBlocks (parse_blocks_csv rows) (ipaddr_to_map_key ip)) _) = _
    rw [buildBlocks_eq, flatMap_bucketContrib_eq_filter]
    by_cases hfe : (parse_blocks_csv rows).filter
        (fun b => (expand_network b.network).contains
          (ipaddr_to_map_key ip)) = []
    · rw [if_pos hfe]
      rfl
    · rw [if_neg hfe]
      have hnone : ((parse_blocks_csv rows).filter
          (fun b => (expand_network b.network).contains
            (ipaddr_to_map_key ip))).find?
          (fun b => ipnetContains b.network ip) = none := by
        rw [List.find?_eq_none]
        intro x hx
        have hxbs : x ∈ parse_blocks_csv rows := (List.mem_filter.mp hx).1
        simp [hall x hxbs]
      rw [Option.some_bind, hnone]

/-- Witness for C10 on the repository's own dataset and the address
1.0.0.77. -/
theorem resolve_no_lost_matches_witness :
    parseIpv4 ipStrExample = some 16777293 ∧
    ∃ b, resolve (GeoIPDB.new threeRowExample []) ipStrExample =
        Outcome.ok (some b) ∧ ipnetContains b.network 16777293 = true :=
  ⟨by decide,
    (resolve_no_lost_matches threeRowExample [] ipStrExample 16777293
      (by decide)).1 (by decide)⟩
